import Mathlib

/-!
Verification development for the mchacks2026 backend video pipeline.

The Python sources are embedded shallowly:
  * timestamp parsing   — backend/gumloop.py `parse_timestamp`,
                          backend/video_processing.py `parse_timestamp`,
                          backend/services/video_processing.py `time_to_seconds`;
  * job polling         — backend/gumloop.py `get_gumloop_results` and the
                          polling loop of backend/main.py `process_video_task`;
  * subtitle chunking   — backend/services/video_processing.py
                          `add_subtitles_to_video` (word chunking and timing);
  * audio mux step      — the tail of the same function;
  * composition builder — backend/video_processing.py `create_video_from_matches`;
  * clip normalizer / sequencer — `cut_clip` and `assemble_video`, which are
                          imported by backend/main.py but whose definitions are
                          absent from the source tree; these are modelled from
                          the specification (sections 4.3 and 4.4).

Python floats are modelled as rationals. Python strings are modelled as
`String` at the interface and as `List Char` internally, with the string
primitives (`str.split`, `str.strip`, `str.join`, `float(str)`) embedded as
structurally recursive functions so that concrete runs reduce in the kernel.
Calls into external systems (PIL text measurement, subprocess exit codes,
HTTP / JSON responses) are modelled as explicit function or data parameters.
-/

/-! ### Python string primitives -/

/-- Model of Python `s.split(sep)` for a one-character separator: splits on
every occurrence, keeping empty pieces; the empty string yields `[[]]`. -/
def splitOnChar (sep : Char) : List Char → List (List Char)
  | [] => [[]]
  | c :: cs =>
    let r := splitOnChar sep cs
    if c = sep then [] :: r
    else
      match r with
      | [] => [[c]]
      | h :: t => (c :: h) :: t

/-- Model of Python `s.strip()`: drop leading and trailing whitespace. -/
def trimChars (cs : List Char) : List Char :=
  ((cs.dropWhile Char.isWhitespace).reverse.dropWhile Char.isWhitespace).reverse

/-- Model of Python `s.split()` before dropping empties: split on every
whitespace character. -/
def wsSplit : List Char → List (List Char)
  | [] => [[]]
  | c :: cs =>
    let r := wsSplit cs
    if c.isWhitespace then [] :: r
    else
      match r with
      | [] => [[c]]
      | h :: t => (c :: h) :: t

/-- Model of Python `s.split()`: whitespace split with empty pieces dropped. -/
def pyWords (s : String) : List (List Char) :=
  (wsSplit s.data).filter fun w => !w.isEmpty

/-- Model of Python `' '.join(words)`. -/
def joinWords : List (List Char) → List Char
  | [] => []
  | [w] => w
  | w :: ws => w ++ ' ' :: joinWords ws

/-- Numeric value of a string of decimal digits. -/
def digitsVal (cs : List Char) : Nat :=
  cs.foldl (fun a c => a * 10 + (c.toNat - 48)) 0

/-- Model of Python `float(s)` on the unsigned decimal numerals that reach it
in this program (a sign would already have been consumed by the range split on
a dash); `none` models `float` raising `ValueError`. Python's `float` strips
surrounding whitespace, so the model trims first. -/
def parseFloat (s : List Char) : Option ℚ :=
  match splitOnChar '.' (trimChars s) with
  | [i] =>
    if 0 < i.length ∧ i.all Char.isDigit then some (digitsVal i) else none
  | [i, f] =>
    if 0 < i.length + f.length ∧ i.all Char.isDigit ∧ f.all Char.isDigit then
      some ((digitsVal i : ℚ) + (digitsVal f : ℚ) / 10 ^ f.length)
    else none
  | _ => none

/-- Model of the Python comprehension `[float(p) for p in parts]`: converts
left to right, failing as soon as one conversion raises. -/
def mapFloat : List (List Char) → Option (List ℚ)
  | [] => some []
  | p :: ps =>
    match parseFloat p, mapFloat ps with
    | some v, some vs => some (v :: vs)
    | _, _ => none

/-! ### Timestamp parsers

backend/gumloop.py `parse_timestamp` (lines 179-193): the inner `parse_time`
maps `float` over all colon components of the stripped string first, then
accepts exactly 2 (`MM:SS`) or 3 (`HH:MM:SS`) components, raising `ValueError`
otherwise (so a bare-seconds string raises); the outer function splits on a
dash, always parses part 0, and parses part 1 only when present.

backend/video_processing.py `parse_timestamp` (lines 24-39): the unpacking
`start_str, end_str = timestamp_str.split('-')` succeeds only with exactly two
dash parts; its `to_seconds` dispatches on the component count, and any count
other than 2 or 3 falls into `float(parts[0])`, converting only the first
component.

backend/services/video_processing.py `time_to_seconds` (lines 72-82) has the
same component-count dispatch (the copy at backend/video_processing.py line
530 is identical). -/

/-- Embedding of the inner `parse_time` of backend/gumloop.py
`parse_timestamp`; `none` models a raised `ValueError`. -/
def parse_time (t : List Char) : Option ℚ :=
  match mapFloat (splitOnChar ':' (trimChars t)) with
  | some [m, s] => some (m * 60 + s)
  | some [h, m, s] => some (h * 3600 + m * 60 + s)
  | _ => none

/-- Embedding of backend/gumloop.py `parse_timestamp`: returns the parsed
start and, when a second dash part exists, the parsed end. -/
def parse_timestamp (timestamp : String) : Option (ℚ × Option ℚ) :=
  match splitOnChar '-' timestamp.data with
  | [] => none
  | p0 :: rest =>
    match parse_time p0 with
    | none => none
    | some start =>
      match rest with
      | [] => some (start, none)
      | p1 :: _ =>
        match parse_time p1 with
        | none => none
        | some e => some (start, some e)

/-- Embedding of the inner `to_seconds` of backend/video_processing.py
`parse_timestamp`. -/
def vp_to_seconds (t : List Char) : Option ℚ :=
  match splitOnChar ':' (trimChars t) with
  | [h, m, s] =>
    match parseFloat h, parseFloat m, parseFloat s with
    | some hv, some mv, some sv => some (hv * 3600 + mv * 60 + sv)
    | _, _, _ => none
  | [m, s] =>
    match parseFloat m, parseFloat s with
    | some mv, some sv => some (mv * 60 + sv)
    | _, _ => none
  | p :: _ => parseFloat p
  | [] => none

/-- Embedding of backend/video_processing.py `parse_timestamp`; `none` models
a raised exception (tuple-unpack failure on a dash-part count other than 2, or
a `float` failure inside `to_seconds`). -/
def vp_parse_timestamp (s : String) : Option (ℚ × ℚ) :=
  match splitOnChar '-' s.data with
  | [a, b] =>
    match vp_to_seconds a, vp_to_seconds b with
    | some x, some y => some (x, y)
    | _, _ => none
  | _ => none

/-- Embedding of backend/services/video_processing.py `time_to_seconds`
(no strip of the whole string; each component is still stripped by `float`). -/
def time_to_seconds (time_str : String) : Option ℚ :=
  match splitOnChar ':' time_str.data with
  | [h, m, s] =>
    match parseFloat h, parseFloat m, parseFloat s with
    | some hv, some mv, some sv => some (hv * 3600 + mv * 60 + sv)
    | _, _, _ => none
  | [m, s] =>
    match parseFloat m, parseFloat s with
    | some mv, some sv => some (mv * 60 + sv)
    | _, _ => none
  | p :: _ => parseFloat p
  | [] => none

/-- A time string is acceptable to gumloop's `parse_time` exactly when its
stripped colon split has 2 or 3 components, all convertible by `float`. -/
def timeComponentsOk (t : List Char) : Bool :=
  ((splitOnChar ':' (trimChars t)).length == 2 ||
      (splitOnChar ':' (trimChars t)).length == 3) &&
    (splitOnChar ':' (trimChars t)).all fun p => (parseFloat p).isSome

/-- A time string is acceptable to the `to_seconds` of
backend/video_processing.py `parse_timestamp` exactly when: all components
convert when there are 2 or 3 of them, and otherwise just the first component
converts. -/
def vpTimeOk (t : List Char) : Bool :=
  if (splitOnChar ':' (trimChars t)).length == 2 ||
      (splitOnChar ':' (trimChars t)).length == 3 then
    (splitOnChar ':' (trimChars t)).all fun p => (parseFloat p).isSome
  else
    (parseFloat ((splitOnChar ':' (trimChars t)).headD [])).isSome

/-! ### Remote job polling

backend/gumloop.py `get_gumloop_results` (lines 77-140), on the configured,
non-mock path (`GUMLOOP_USE_MOCK` false, results URL / key / user id set).
The HTTP response body is modelled by `GumloopResponse`: its `state` field
(`data.get("state")`, absent modelled as `none`) and the outcome of reading
and JSON-decoding `outputs.output`, modelled by `OutputField`:
  * `missing`     — `outputs` has no `output` key or its value is falsy
                    (`None` or the empty string);
  * `invalidJson` — `json.loads(output_str)` raises `JSONDecodeError`
                    (caught: the function prints and returns `None`);
  * `nonObject`   — the decoded JSON is not an object, so `.get("matches")`
                    raises `AttributeError`, caught by the outer generic
                    handler which returns `None`;
  * `obj m`       — a decoded object whose optional `matches` field is `m`
                    (`output_data.get("matches", [])` defaults to `[]`).
The element type of a match list is left abstract. -/

/-- Outcome of reading and decoding the `outputs.output` field. -/
inductive OutputField (α : Type) where
  | missing : OutputField α
  | invalidJson : OutputField α
  | nonObject : OutputField α
  | obj : Option (List α) → OutputField α
deriving DecidableEq

/-- Abstraction of the JSON body returned by the Gumloop results endpoint. -/
structure GumloopResponse (α : Type) where
  state : Option String
  output : OutputField α
deriving DecidableEq

/-- Result of one poll: `notReady` models returning `None`, `ready` models
returning the match list, `raisedJobFailed` models raising an exception out of
the poll (the spec's `JobFailed`). -/
inductive PollOutcome (α : Type) where
  | notReady : PollOutcome α
  | ready : List α → PollOutcome α
  | raisedJobFailed : PollOutcome α
deriving DecidableEq

/-- States the code treats as still in progress (line 130). -/
def pollWaitStates : List String := ["RUNNING", "QUEUED", "PENDING"]

/-- Embedding of backend/gumloop.py `get_gumloop_results` on one received
response. -/
def get_gumloop_results {α : Type} (r : GumloopResponse α) : PollOutcome α :=
  if r.state = some "DONE" then
    match r.output with
    | OutputField.obj m => PollOutcome.ready (m.getD [])
    | _ => PollOutcome.notReady
  else if r.state ∈ pollWaitStates.map some then
    PollOutcome.notReady
  else
    PollOutcome.notReady

/-! ### The polling driver

backend/main.py `process_video_task` (lines 121-132): a `for i in
range(max_retries)` loop with `max_retries = 30`; every attempt that returns
`None` is followed by `await asyncio.sleep(10)`; a non-`None` result breaks
out; if the loop ends with `None` the code raises (the spec's `JobTimeout`).

However, the poll call itself is broken: line 125 reads
`gumloop_matches = await get_gumloop_results(run_id)` — one positional
argument — while backend/gumloop.py line 77 declares
`get_gumloop_results(run_id, username, project_name)` with three required
parameters and no defaults. Python raises `TypeError` at the call site before
the callee's body runs, the exception escapes the loop, and the outer handler
at line 174 marks the project failed. The model keeps this arity check
explicit: `pollCall` raises unless the argument count matches the parameter
count, while `remote` gives the result a well-formed poll would have produced
for each attempt index. The loop is modelled with the remaining attempt count
as fuel, returning the outcome together with the number of poll calls that
completed and the total seconds slept. -/

/-- Maximum poll attempts (backend/main.py line 122). -/
def max_retries : Nat := 30

/-- Seconds slept after an empty poll (backend/main.py line 129). -/
def poll_interval_seconds : Nat := 10

/-- Required positional parameters of `get_gumloop_results`
(backend/gumloop.py line 77: run_id, username, project_name; no defaults). -/
def get_gumloop_results_required_params : Nat := 3

/-- Positional arguments passed at the poll site (backend/main.py line 125:
only run_id). -/
def process_video_task_poll_args : Nat := 1

/-- Result of one attempted poll call: the call returned a value, or raised
before the callee's body ran. -/
inductive PollCallOutcome (α : Type) where
  | returned : Option α → PollCallOutcome α
  | raisedTypeError : PollCallOutcome α
deriving DecidableEq

/-- Model of the call at backend/main.py line 125: a Python call whose
positional-argument count differs from the callee's required parameter count
raises `TypeError` before the body runs; otherwise the remote poll result for
attempt `i` is returned. -/
def pollCall {α : Type} (remote : Nat → Option α) (i : Nat) : PollCallOutcome α :=
  if process_video_task_poll_args = get_gumloop_results_required_params then
    PollCallOutcome.returned (remote i)
  else
    PollCallOutcome.raisedTypeError

/-- Outcome of the polling section: matches received, the raise after an
exhausted loop (the spec's `JobTimeout`), or an exception escaping the loop
into the outer handler at line 174, which marks the project failed. -/
inductive DriverOutcome (α : Type) where
  | got : α → DriverOutcome α
  | timeout : DriverOutcome α
  | raised : DriverOutcome α
deriving DecidableEq

/-- One pass of the polling loop from attempt index `i` with `rem` attempts
remaining: returns (outcome, poll calls completed, seconds slept). A call
that raises aborts the loop at once, completing no further call; exhausting
the attempts with every result empty is the timeout raise. -/
def pollLoopFrom {α : Type} (attempt : Nat → PollCallOutcome α) :
    Nat → Nat → DriverOutcome α × Nat × Nat
  | _, 0 => (DriverOutcome.timeout, 0, 0)
  | i, rem + 1 =>
    match attempt i with
    | PollCallOutcome.raisedTypeError => (DriverOutcome.raised, 0, 0)
    | PollCallOutcome.returned (some v) => (DriverOutcome.got v, 1, 0)
    | PollCallOutcome.returned none =>
      let r := pollLoopFrom attempt (i + 1) rem
      (r.1, r.2.1 + 1, r.2.2 + poll_interval_seconds)

/-- Embedding of the polling section of backend/main.py `process_video_task`
as written, including the mismatched call at line 125. -/
def process_video_task_poll {α : Type} (remote : Nat → Option α) :
    DriverOutcome α × Nat × Nat :=
  pollLoopFrom (pollCall remote) 0 max_retries

/-! ### Subtitle word chunking and chunk timing

backend/services/video_processing.py `add_subtitles_to_video` (lines
180-226). The PIL text measurement `get_text_width(test_text, font_size,
font_path) <= max_width` is an external call; the whole test is abstracted as
a predicate `fits` on the joined test text (the variant at
backend/video_processing.py lines 641-658 only differs in this predicate: it
adds a length-estimate disjunct, so every theorem below quantified over `fits`
covers both variants). A word is a `List Char`; a chunk is a list of words. -/

/-- Embedding of the greedy chunking loop: `current` is `current_chunk`, the
result is the final `chunks` list after the trailing flush. -/
def chunkGo (fits : List Char → Bool) (current : List (List Char)) :
    List (List Char) → List (List (List Char))
  | [] => if current.isEmpty then [] else [current]
  | w :: ws =>
    if fits (joinWords (current ++ [w])) then
      chunkGo fits (current ++ [w]) ws
    else if current.isEmpty then
      chunkGo fits [w] ws
    else
      current :: chunkGo fits [w] ws

/-- Word chunks of one entry's word list. -/
def wordChunks (fits : List Char → Bool) (ws : List (List Char)) :
    List (List (List Char)) :=
  chunkGo fits [] ws

/-- One timed subtitle overlay. -/
structure SubtitleChunk where
  text : List Char
  start : ℚ
  duration : ℚ
deriving DecidableEq, Inhabited

/-- Embedding of the per-entry body of the transcript loop: clamp the entry
duration to a 0.5 s floor, split the text into words, chunk them, divide the
clamped duration evenly, and lay chunk `i` at `start_s + i * chunk_duration`
(lines 181-226; the empty-word and zero-chunk `continue`s yield `[]`). -/
def entrySubtitles (fits : List Char → Bool) (start_s end_s : ℚ)
    (text : String) : List SubtitleChunk :=
  let total0 := end_s - start_s
  let total_duration := if total0 ≤ 0 then 1 / 2 else total0
  let words := pyWords text
  if words.isEmpty then []
  else
    let chunks := wordChunks fits words
    let num_chunks := chunks.length
    if num_chunks = 0 then []
    else
      let chunk_duration := total_duration / (num_chunks : ℚ)
      (List.range num_chunks).map fun i =>
        { text := joinWords (chunks.getD i [])
          start := start_s + (i : ℚ) * chunk_duration
          duration := chunk_duration }

/-- One transcript entry; `stop` embeds the source's `end` key (a Lean
keyword). -/
structure TranscriptEntry where
  start : String
  stop : String
  text : String
  emotion : String
deriving DecidableEq

/-- Per-entry processing including the `time_to_seconds` calls on the entry's
boundary strings; `none` models those calls raising. -/
def addSubtitlesEntry (fits : List Char → Bool) (e : TranscriptEntry) :
    Option (List SubtitleChunk) :=
  match time_to_seconds e.start, time_to_seconds e.stop with
  | some s, some t => some (entrySubtitles fits s t e.text)
  | _, _ => none

/-! ### The audio mux step

Tail of backend/services/video_processing.py `add_subtitles_to_video` (lines
278-312). After the subtitled video is written to `video_only_path`: with no
`audio_path` the file is moved to `output_path` unchanged; with an
`audio_path` an ffmpeg command is run that copies the video stream of input 0
and takes the audio stream of input 1 (`-map 0:v:0 -map 1:a:0`), and a
non-zero exit code falls back to moving the video-only file to `output_path`.
The subprocess outcome is abstracted as a predicate `runOk` on the argv. -/

/-- Configured ffmpeg binary (line 10 of the module). -/
def FFMPEG_PATH : String := "C:\\ffmpeg\\bin\\ffmpeg.exe"

/-- Argv of the mux command (lines 281-293). -/
def muxCommand (video_only_path audio_path output_path : String) : List String :=
  [FFMPEG_PATH, "-y",
   "-i", video_only_path,
   "-i", audio_path,
   "-c:v", "copy",
   "-c:a", "aac",
   "-b:a", "192k",
   "-map", "0:v:0",
   "-map", "1:a:0",
   "-async", "1",
   output_path]

/-- Provenance of the produced output file: which file its video came from
and, when present, which file its sole audio track came from. -/
structure OutputMedia where
  videoFrom : String
  audioFrom : Option String
deriving DecidableEq

/-- Embedding of the audio mux step: total (never raises); the mux failure
branch and the no-audio branch both move the video-only file to the output. -/
def audioMuxStep (video_only_path : String) (audio_path : Option String)
    (runOk : List String → Bool) (output_path : String) : OutputMedia :=
  match audio_path with
  | some a =>
    if runOk (muxCommand video_only_path a output_path) then
      { videoFrom := video_only_path, audioFrom := some a }
    else
      { videoFrom := video_only_path, audioFrom := none }
  | none => { videoFrom := video_only_path, audioFrom := none }

/-! ### Composition building

backend/video_processing.py `create_video_from_matches` (lines 83-152): walk
the matches, skip a match whose `matched_clip` or `clip_timestamp` is missing
or falsy, whose timestamp fails to parse (the `except` branch), or whose
parsed duration is not positive; each kept match becomes a video element at
timeline position `current_time`, which then advances by the element's trim
duration; the composition's `duration` is the final `current_time`. The S3
URL resolution is an external callable, passed in as `get_s3_url_func`. -/

/-- One entry of the `matches` list (only the consulted keys). -/
structure MatchRec where
  matched_clip : Option String
  clip_timestamp : Option String
deriving DecidableEq

/-- One Creatomate video element as built at lines 123-129. -/
structure VideoElement where
  source : String
  trim_start : ℚ
  trim_duration : ℚ
  time : ℚ
deriving DecidableEq, Inhabited

/-- The cut a match contributes, if any: its clip key, trim start, and
positive duration; `none` models every `continue` branch of the loop. -/
def matchCut (m : MatchRec) : Option (String × ℚ × ℚ) :=
  match m.matched_clip, m.clip_timestamp with
  | some k, some ts =>
    if k.isEmpty || ts.isEmpty then none
    else
      match vp_parse_timestamp ts with
      | some (start_time, end_time) =>
        if end_time - start_time ≤ 0 then none
        else some (k, start_time, end_time - start_time)
      | none => none
  | _, _ => none

/-- The element-building loop: threads `current_time` through the kept
matches and returns the elements plus the final `current_time` (which the
source uses as the composition's total duration). -/
def buildElements (get_s3_url_func : String → String) (current_time : ℚ) :
    List MatchRec → List VideoElement × ℚ
  | [] => ([], current_time)
  | m :: ms =>
    match matchCut m with
    | none => buildElements get_s3_url_func current_time ms
    | some (k, st, d) =>
      let r := buildElements get_s3_url_func (current_time + d) ms
      ({ source := get_s3_url_func k, trim_start := st, trim_duration := d,
         time := current_time } :: r.1, r.2)

/-- Embedding of the composition assembly of `create_video_from_matches`:
the element list and the composition's declared total duration. -/
def create_video_from_matches (get_s3_url_func : String → String)
    (matchList : List MatchRec) : List VideoElement × ℚ :=
  buildElements get_s3_url_func 0 matchList

/-! ### Clip normalizer and sequencer (modelled from the spec)

backend/main.py imports `cut_clip` and `assemble_video` from
`video_processing` (line 17) and calls them (lines 158, 164, 233, 254), but
no file under the source tree defines them; the specification describes them
as the Clip Normalizer (section 4.3) and the Sequencer (section 4.4). They
are modelled here from the spec's words. The success of each external
encoding strategy is an explicit boolean input. -/

/-- Which cutting strategy produced the segment. -/
inductive CutPath where
  | streamCopy : CutPath
  | reencode : CutPath
deriving DecidableEq

/-- A produced segment: its duration, whether it carries an audio track, and
the duration of the synthesized silent track when one was muxed in. -/
structure NormalizedSegment where
  duration : ℚ
  hasAudioTrack : Bool
  silentTrackDuration : Option ℚ
deriving DecidableEq

/-- Result of probing the source file for an audio stream (spec 4.3 step 1). -/
structure SourceProbe where
  hasAudioStream : Bool
deriving DecidableEq

/-- Modelled from the spec: `cut_clip` (Clip Normalizer, spec section 4.3),
imported by backend/main.py but not defined under the source tree. Steps:
probe `has_audio`; attempt the fast stream-copy cut; on failure fall back to
the re-encode cut; if both fail, `EncodeFailed` (`none`); if the probe found
no audio stream, synthesize a silent stereo track of exactly the cut's
duration and mux it in. -/
def cut_clip (src : SourceProbe) (start_time end_time : ℚ)
    (copyCutOk reencodeCutOk : Bool) : Option (CutPath × NormalizedSegment) :=
  let has_audio := src.hasAudioStream
  let d := end_time - start_time
  let segment : NormalizedSegment :=
    if has_audio then
      { duration := d, hasAudioTrack := true, silentTrackDuration := none }
    else
      { duration := d, hasAudioTrack := true, silentTrackDuration := some d }
  if copyCutOk then some (CutPath.streamCopy, segment)
  else if reencodeCutOk then some (CutPath.reencode, segment)
  else none

/-- Concat directive naming the segments in input order (spec section 4.4). -/
def concatDirective (paths : List String) : List String :=
  paths.map fun p => "file " ++ p

/-- Outcome of sequencing: stream-copy concat, re-encode concat at the fixed
configuration, or failure after both strategies (spec `ConcatFailed`). -/
inductive ConcatOutcome where
  | copied : List String → ConcatOutcome
  | reencoded : List String → Nat → Nat → Nat → ConcatOutcome
  | failed : ConcatOutcome
deriving DecidableEq

/-- Modelled from the spec: `assemble_video` (Sequencer, spec section 4.4),
imported by backend/main.py but not defined under the source tree. Builds the
concat directive in input order, attempts stream-copy concatenation first,
falls back to re-encoding all inputs at the fixed 1080x1920 / 30 fps
configuration, and only then fails. -/
def assemble_video (paths : List String) (copyOk reencodeOk : Bool) :
    ConcatOutcome :=
  let directive := concatDirective paths
  if copyOk then ConcatOutcome.copied directive
  else if reencodeOk then ConcatOutcome.reencoded directive 1080 1920 30
  else ConcatOutcome.failed

/-! ## Claims -/

/-- C1, counterexample. The claim says `poll` raises `JobFailed` on a
terminal failure state and on a malformed done payload (non-JSON output or
missing result field). The code instead returns `None` on a failure state
(line 134) and on a non-JSON done payload (line 126), and substitutes `[]`
for a missing `matches` field (line 121): at state `FAILED` the poll yields
`notReady`, not a raise. -/
theorem get_gumloop_results_failure_no_raise :
    get_gumloop_results (α := Nat) ⟨some "FAILED", OutputField.missing⟩ =
      PollOutcome.notReady ∧
    get_gumloop_results (α := Nat) ⟨some "DONE", OutputField.invalidJson⟩ =
      PollOutcome.notReady ∧
    get_gumloop_results (α := Nat) ⟨some "DONE", OutputField.obj none⟩ =
      PollOutcome.ready [] := by
  refine ⟨?_, ?_, ?_⟩ <;> decide

/-- C1, amended. `poll` returns `None` while the state is
pending/queued/running; on a done state with a decoded JSON object it returns
the object's `matches` field, defaulting to the empty list; on a done state
with a missing, non-JSON, or non-object payload it returns `None`; on every
other (failure) state it also returns `None`; it never raises `JobFailed`. -/
theorem get_gumloop_results_characterization {α : Type} (r : GumloopResponse α) :
    get_gumloop_results r ≠ PollOutcome.raisedJobFailed ∧
    (r.state ≠ some "DONE" → get_gumloop_results r = PollOutcome.notReady) ∧
    (∀ m, r.state = some "DONE" → r.output = OutputField.obj m →
      get_gumloop_results r = PollOutcome.ready (m.getD [])) ∧
    (r.state = some "DONE" →
      (r.output = OutputField.missing ∨ r.output = OutputField.invalidJson ∨
        r.output = OutputField.nonObject) →
      get_gumloop_results r = PollOutcome.notReady) := by
  obtain ⟨st, out⟩ := r
  by_cases h : st = some "DONE"
  · subst h
    cases out <;> simp [get_gumloop_results]
  · cases out <;> simp [get_gumloop_results, h]

/-- C1, witness for the amended theorem at concrete inputs. -/
theorem get_gumloop_results_characterization_witness :
    get_gumloop_results (α := Nat) ⟨some "RUNNING", OutputField.missing⟩ =
      PollOutcome.notReady ∧
    get_gumloop_results (α := Nat) ⟨some "DONE", OutputField.obj (some [1, 2])⟩ =
      PollOutcome.ready [1, 2] :=
  ⟨(get_gumloop_results_characterization ⟨some "RUNNING", OutputField.missing⟩).2.1
      (by decide),
   (get_gumloop_results_characterization ⟨some "DONE", OutputField.obj (some [1, 2])⟩).2.2.1
      (some [1, 2]) rfl rfl⟩

/-- A loop of well-formed calls that all return empty performs exactly `rem`
polls and sleeps `rem` intervals before timing out. -/
theorem pollLoopFrom_all_none {α : Type} (remote : Nat → Option α)
    (h : ∀ i, remote i = none) :
    ∀ rem i, pollLoopFrom (fun j => PollCallOutcome.returned (remote j)) i rem =
      (DriverOutcome.timeout, rem, rem * poll_interval_seconds) := by
  intro rem
  induction rem with
  | zero => intro i; rfl
  | succ n ih =>
    intro i
    simp only [pollLoopFrom, h i, ih (i + 1)]
    refine Prod.ext rfl (Prod.ext rfl ?_)
    simp [Nat.succ_mul]

/-- The loop never completes more polls than it has attempts remaining,
whatever each call does. -/
theorem pollLoopFrom_count_le {α : Type} (attempt : Nat → PollCallOutcome α) :
    ∀ rem i, (pollLoopFrom attempt i rem).2.1 ≤ rem := by
  intro rem
  induction rem with
  | zero => intro i; simp [pollLoopFrom]
  | succ n ih =>
    intro i
    cases hp : attempt i with
    | raisedTypeError => simp [pollLoopFrom, hp]
    | returned o =>
      cases o with
      | some v => simp [pollLoopFrom, hp]
      | none =>
        simp only [pollLoopFrom, hp]
        exact Nat.succ_le_succ (ih (i + 1))

/-- C2, code bug. The claim matches the loop's documented intent
(backend/main.py line 122: poll for 5 minutes as 30 attempts of 10 s), but
the call at line 125 passes 1 positional argument to the 3-parameter
`get_gumloop_results`, so the very first attempt raises `TypeError`: the
driver as written completes zero poll attempts, never sleeps, and lands in
the generic failure handler instead of the `JobTimeout` raise — for every
possible remote behaviour. With a well-formed call the same loop would
satisfy the claim: exactly 30 polls then the timeout on an always-empty job,
and never more than 30 completed polls on any behaviour. -/
theorem process_video_task_poll_type_error {α : Type} (remote : Nat → Option α) :
    process_video_task_poll remote = (DriverOutcome.raised, 0, 0) ∧
    pollCall remote 0 = PollCallOutcome.raisedTypeError ∧
    ((∀ i, remote i = none) →
      pollLoopFrom (fun j => PollCallOutcome.returned (remote j)) 0 max_retries =
        (DriverOutcome.timeout, max_retries, max_retries * poll_interval_seconds)) ∧
    (∀ attempt : Nat → PollCallOutcome α,
      (pollLoopFrom attempt 0 max_retries).2.1 ≤ max_retries) := by
  refine ⟨rfl, rfl, ?_, ?_⟩
  · intro h
    exact pollLoopFrom_all_none remote h max_retries 0
  · intro attempt
    exact pollLoopFrom_count_le attempt max_retries 0

/-- C2, witness at a concrete remote: the broken call aborts with zero
completed polls, while the well-formed loop would time out after exactly 30
polls and 300 seconds of sleeping. -/
theorem process_video_task_poll_type_error_witness :
    process_video_task_poll (fun _ => (none : Option Nat)) =
      (DriverOutcome.raised, 0, 0) ∧
    pollLoopFrom (fun j => PollCallOutcome.returned
        ((fun _ => (none : Option Nat)) j)) 0 max_retries =
      (DriverOutcome.timeout, 30, 300) := by
  refine ⟨(process_video_task_poll_type_error (fun _ => (none : Option Nat))).1, ?_⟩
  have h := (process_video_task_poll_type_error (fun _ => (none : Option Nat))).2.2.1
    (fun _ => rfl)
  simpa [max_retries, poll_interval_seconds] using h

/-- C5. Modelled from the spec (see `cut_clip`): every segment the normalizer
produces carries an audio track; when the probe found no audio stream, the
synthesized silent track has exactly the cut's duration. Reason: the deciding
code is not under the source tree. -/
theorem cut_clip_audio_invariant (src : SourceProbe) (start_time end_time : ℚ)
    (copyCutOk reencodeCutOk : Bool) (p : CutPath) (seg : NormalizedSegment)
    (h : cut_clip src start_time end_time copyCutOk reencodeCutOk = some (p, seg)) :
    seg.hasAudioTrack = true ∧
    seg.duration = end_time - start_time ∧
    (src.hasAudioStream = false →
      seg.silentTrackDuration = some (end_time - start_time)) := by
  unfold cut_clip at h
  cases hs : src.hasAudioStream <;> rw [hs] at h <;>
    by_cases hc : copyCutOk <;> by_cases hr : reencodeCutOk <;>
    simp [hc, hr] at h <;> obtain ⟨h1, h2⟩ := h <;> subst h2 <;> simp [hs]

/-- C5, witness: an audio-less source with a successful stream-copy cut. -/
theorem cut_clip_audio_invariant_witness :
    (cut_clip ⟨false⟩ 1 4 true false).map (fun x => x.2.hasAudioTrack) =
      some true ∧
    (cut_clip ⟨false⟩ 1 4 true false).map (fun x => x.2.silentTrackDuration) =
      some (some ((4 : ℚ) - 1)) := by
  have h := cut_clip_audio_invariant ⟨false⟩ 1 4 true false CutPath.streamCopy
    { duration := 4 - 1, hasAudioTrack := true, silentTrackDuration := some (4 - 1) }
    rfl
  rw [show cut_clip ⟨false⟩ 1 4 true false =
    some (CutPath.streamCopy,
      { duration := 4 - 1, hasAudioTrack := true,
        silentTrackDuration := some (4 - 1) }) from rfl]
  exact ⟨by simp [h.1], by simp [h.2.2 rfl]⟩

/-- C6. Modelled from the spec (see `assemble_video`): the sequencer builds
the concat directive naming the segments in input order, tries stream copy
first, falls back to one fixed re-encode configuration, and reports
`ConcatFailed` only when both strategies failed. Reason: the deciding code is
not under the source tree. -/
theorem assemble_video_fallback (paths : List String) (copyOk reencodeOk : Bool) :
    (assemble_video paths copyOk reencodeOk = ConcatOutcome.failed ↔
      copyOk = false ∧ reencodeOk = false) ∧
    (copyOk = true →
      assemble_video paths copyOk reencodeOk =
        ConcatOutcome.copied (concatDirective paths)) ∧
    (copyOk = false → reencodeOk = true →
      assemble_video paths copyOk reencodeOk =
        ConcatOutcome.reencoded (concatDirective paths) 1080 1920 30) ∧
    concatDirective paths = paths.map (fun p => "file " ++ p) := by
  cases copyOk <;> cases reencodeOk <;> simp [assemble_video, concatDirective]

/-- C6, witness: stream copy fails, the re-encode fallback succeeds. -/
theorem assemble_video_fallback_witness :
    assemble_video ["a.mp4", "b.mp4"] false true =
      ConcatOutcome.reencoded (concatDirective ["a.mp4", "b.mp4"]) 1080 1920 30 :=
  (assemble_video_fallback ["a.mp4", "b.mp4"] false true).2.2.1 rfl rfl

/-- C7. The audio-mux step is total (never raises): with no voiceover the
video-only file is passed through unchanged, and the output carries an audio
track exactly when a voiceover was supplied and the mux subprocess succeeded,
in which case the voiceover is the sole audio source. -/
theorem audio_mux_best_effort (video_only_path output_path : String)
    (audio_path : Option String) (runOk : List String → Bool) :
    (audioMuxStep video_only_path audio_path runOk output_path).videoFrom =
      video_only_path ∧
    audioMuxStep video_only_path none runOk output_path =
      { videoFrom := video_only_path, audioFrom := none } ∧
    (∀ a, (audioMuxStep video_only_path audio_path runOk output_path).audioFrom =
        some a ↔
      (audio_path = some a ∧
        runOk (muxCommand video_only_path a output_path) = true)) := by
  refine ⟨?_, rfl, ?_⟩
  · cases audio_path with
    | none => rfl
    | some a =>
      by_cases h : runOk (muxCommand video_only_path a output_path) <;>
        simp [audioMuxStep, h]
  · intro a
    cases audio_path with
    | none => simp [audioMuxStep]
    | some b =>
      by_cases h : runOk (muxCommand video_only_path b output_path)
      · simp only [audioMuxStep, h, if_true]
        constructor
        · rintro hba
          obtain rfl : b = a := by simpa using hba
          exact ⟨rfl, h⟩
        · rintro ⟨hba, _⟩
          obtain rfl : b = a := by simpa using hba
          rfl
      · simp only [audioMuxStep, h, if_false]
        constructor
        · intro hfalse; simp at hfalse
        · rintro ⟨hba, hrun⟩
          obtain rfl : b = a := by simpa using hba
          exact absurd hrun (by simp [h])

/-- Generalized invariant of the greedy chunking loop: flushing the pending
chunk and the processed chunks reproduces the pending words followed by the
remaining words. -/
theorem chunkGo_flatten (fits : List Char → Bool) :
    ∀ (ws cur : List (List Char)), (chunkGo fits cur ws).flatten = cur ++ ws := by
  intro ws
  induction ws with
  | nil =>
    intro cur
    cases cur <;> simp [chunkGo]
  | cons w ws ih =>
    intro cur
    cases cur with
    | nil =>
      by_cases hf : fits (joinWords ([] ++ [w])) <;>
        simp only [List.nil_append] at hf <;>
        simp [chunkGo, hf, ih]
    | cons c cs =>
      by_cases hf : fits (joinWords (c :: (cs ++ [w]))) <;>
        simp [chunkGo, List.cons_append, hf, ih]

/-- C4. Word-chunking never drops or duplicates a word: the concatenation of
all chunks reproduces the entry's word sequence exactly; and a single word
that the width test rejects on its own still yields exactly one chunk holding
only that word (quantified over the abstract width predicate `fits`, which
covers both source variants of the test). -/
theorem word_chunking_preserves_words (fits : List Char → Bool)
    (ws : List (List Char)) (w : List Char)
    (hw : fits (joinWords [w]) = false) :
    (wordChunks fits ws).flatten = ws ∧ wordChunks fits [w] = [[w]] := by
  constructor
  · simpa using chunkGo_flatten fits ws []
  · simp [wordChunks, chunkGo, hw]

/-- Width predicate used by concrete runs: the joined text is at most four
characters wide. -/
def demoFits : List Char → Bool := fun cs => decide (cs.length ≤ 4)

/-- C4, witness: an oversized single word and a two-word list. -/
theorem word_chunking_preserves_words_witness :
    demoFits (joinWords ["abcdefgh".data]) = false ∧
    (wordChunks demoFits ["ab".data, "cd".data]).flatten = ["ab".data, "cd".data] ∧
    wordChunks demoFits ["abcdefgh".data] = [["abcdefgh".data]] :=
  ⟨by decide,
   (word_chunking_preserves_words demoFits ["ab".data, "cd".data] "abcdefgh".data
      (by decide)).1,
   (word_chunking_preserves_words demoFits ["ab".data, "cd".data] "abcdefgh".data
      (by decide)).2⟩

/-- Generalized timeline invariant of the element-building loop: the final
`current_time` is the starting one plus the kept trim durations, and each
element's `time` is the starting `current_time` plus the durations of the
elements kept before it. -/
theorem buildElements_invariant (f : String → String) :
    ∀ (ms : List MatchRec) (cur : ℚ),
      (buildElements f cur ms).2 =
        cur + ((buildElements f cur ms).1.map VideoElement.trim_duration).sum ∧
      ∀ i, i < (buildElements f cur ms).1.length →
        ((buildElements f cur ms).1.getD i default).time =
          cur + (((buildElements f cur ms).1.take i).map
            VideoElement.trim_duration).sum := by
  intro ms
  induction ms with
  | nil =>
    intro cur
    refine ⟨by simp [buildElements], ?_⟩
    intro i h
    simp [buildElements] at h
  | cons m ms ih =>
    intro cur
    cases hm : matchCut m with
    | none => simpa [buildElements, hm] using ih cur
    | some kd =>
      obtain ⟨k, st, d⟩ := kd
      have hb : buildElements f cur (m :: ms) =
          ({ source := f k, trim_start := st, trim_duration := d,
             time := cur } :: (buildElements f (cur + d) ms).1,
           (buildElements f (cur + d) ms).2) := by
        simp [buildElements, hm]
      rw [hb]
      constructor
      · have h1 := (ih (cur + d)).1
        simp only [h1, List.map_cons, List.sum_cons]
        ring
      · intro i hlen
        cases i with
        | zero => simp
        | succ j =>
          simp only [List.length_cons, Nat.succ_lt_succ_iff] at hlen
          have h3 := (ih (cur + d)).2 j hlen
          simp only [List.getD_cons_succ, List.take_succ_cons, List.map_cons,
            List.sum_cons, h3]
          ring

/-- C10. In `create_video_from_matches`, each kept element's timeline
position equals the sum of the trim durations of the previously kept
elements, the composition's declared total duration equals the sum of all
kept trim durations, and a match that contributes no cut (missing or falsy
key or timestamp, unparseable timestamp, non-positive duration) changes
nothing. -/
theorem create_video_from_matches_timeline (f : String → String)
    (matchList : List MatchRec) :
    (create_video_from_matches f matchList).2 =
      ((create_video_from_matches f matchList).1.map
        VideoElement.trim_duration).sum ∧
    (∀ i, i < (create_video_from_matches f matchList).1.length →
      ((create_video_from_matches f matchList).1.getD i default).time =
        (((create_video_from_matches f matchList).1.take i).map
          VideoElement.trim_duration).sum) ∧
    (∀ m, matchCut m = none →
      create_video_from_matches f (m :: matchList) =
        create_video_from_matches f matchList) := by
  have h := buildElements_invariant f matchList 0
  refine ⟨by simpa using h.1, ?_, ?_⟩
  · intro i hi
    simpa using h.2 i hi
  · intro m hm
    simp [create_video_from_matches, buildElements, hm]

/-- Concrete match list for witnesses: a 4-second cut, a skipped entry, and a
2-second cut. -/
def demoMatches : List MatchRec :=
  [{ matched_clip := some "a.mp4", clip_timestamp := some "0:01-0:05" },
   { matched_clip := none, clip_timestamp := none },
   { matched_clip := some "b.mp4", clip_timestamp := some "0:02-0:04" }]

/-- C10, witness: the second kept element starts after the first one's trim
duration, and the skip branch leaves the composition unchanged. -/
theorem create_video_from_matches_timeline_witness :
    ((create_video_from_matches (fun s => s) demoMatches).1.getD 1 default).time =
      (((create_video_from_matches (fun s => s) demoMatches).1.take 1).map
        VideoElement.trim_duration).sum ∧
    create_video_from_matches (fun s => s)
        ({ matched_clip := none, clip_timestamp := none } :: demoMatches) =
      create_video_from_matches (fun s => s) demoMatches :=
  ⟨(create_video_from_matches_timeline (fun s => s) demoMatches).2.1 1
      (by with_unfolding_all decide),
   (create_video_from_matches_timeline (fun s => s) demoMatches).2.2
      { matched_clip := none, clip_timestamp := none } rfl⟩

/-- A nonempty word list always produces at least one chunk. -/
theorem wordChunks_ne_nil (fits : List Char → Bool) (ws : List (List Char))
    (h : ws ≠ []) : wordChunks fits ws ≠ [] := by
  intro hc
  apply h
  have h2 := chunkGo_flatten fits ws []
  rw [show wordChunks fits ws = chunkGo fits [] ws from rfl] at hc
  rw [hc] at h2
  simpa using h2.symm

/-- Reading an index below the bound out of a mapped range gives the mapped
value. -/
theorem getD_range_map {β : Type} [Inhabited β] (N i : Nat) (f : Nat → β)
    (h : i < N) : ((List.range N).map f).getD i default = f i := by
  rw [List.getD_eq_getElem?_getD, List.getElem?_map, List.getElem?_range h]
  rfl

/-- C3. For an entry with a nonempty word list, with clamped duration `D` and
`N` produced chunks: there are exactly `N` timed chunks, every chunk has
duration `D / N`, chunk `i` starts at `start_s + i * (D / N)`, the durations
sum to exactly `D`, consecutive chunks abut exactly, and starts strictly
increase. -/
theorem entry_chunk_timing (fits : List Char → Bool) (start_s end_s : ℚ)
    (text : String) (hw : pyWords text ≠ []) :
    (entrySubtitles fits start_s end_s text).length =
      (wordChunks fits (pyWords text)).length ∧
    0 < (entrySubtitles fits start_s end_s text).length ∧
    (∀ i, i < (wordChunks fits (pyWords text)).length →
      ((entrySubtitles fits start_s end_s text).getD i default).duration =
        (if end_s - start_s ≤ 0 then (1 : ℚ) / 2 else end_s - start_s) /
          ((wordChunks fits (pyWords text)).length : ℚ) ∧
      ((entrySubtitles fits start_s end_s text).getD i default).start =
        start_s + (i : ℚ) *
          ((if end_s - start_s ≤ 0 then (1 : ℚ) / 2 else end_s - start_s) /
            ((wordChunks fits (pyWords text)).length : ℚ))) ∧
    ((entrySubtitles fits start_s end_s text).map SubtitleChunk.duration).sum =
      (if end_s - start_s ≤ 0 then (1 : ℚ) / 2 else end_s - start_s) ∧
    (∀ i, i + 1 < (wordChunks fits (pyWords text)).length →
      ((entrySubtitles fits start_s end_s text).getD (i + 1) default).start =
        ((entrySubtitles fits start_s end_s text).getD i default).start +
          ((entrySubtitles fits start_s end_s text).getD i default).duration ∧
      ((entrySubtitles fits start_s end_s text).getD i default).start <
        ((entrySubtitles fits start_s end_s text).getD (i + 1) default).start) := by
  have hempty : (pyWords text).isEmpty = false := by
    cases h : pyWords text with
    | nil => exact absurd h hw
    | cons a l => rfl
  have hN0 : (wordChunks fits (pyWords text)).length ≠ 0 := by
    simpa [List.length_eq_zero] using wordChunks_ne_nil fits (pyWords text) hw
  have hNpos : 0 < (wordChunks fits (pyWords text)).length := Nat.pos_of_ne_zero hN0
  have hNQ : ((wordChunks fits (pyWords text)).length : ℚ) ≠ 0 :=
    Nat.cast_ne_zero.mpr hN0
  set D : ℚ := if end_s - start_s ≤ 0 then (1 : ℚ) / 2 else end_s - start_s with hD
  set N : ℕ := (wordChunks fits (pyWords text)).length with hNdef
  have hDpos : 0 < D := by
    rw [hD]
    by_cases h : end_s - start_s ≤ 0
    · simp [h]
    · simp [h]; linarith
  have hdpos : 0 < D / (N : ℚ) := div_pos hDpos (by exact_mod_cast hNpos)
  have hL : entrySubtitles fits start_s end_s text =
      (List.range N).map (fun i =>
        { text := joinWords ((wordChunks fits (pyWords text)).getD i [])
          start := start_s + (i : ℚ) * (D / (N : ℚ))
          duration := D / (N : ℚ) }) := by
    simp only [entrySubtitles, hempty, Bool.false_eq_true, if_false, hN0,
      ← hNdef, ← hD]
  refine ⟨?_, ?_, ?_, ?_, ?_⟩
  · rw [hL]; simp
  · rw [hL]; simpa using hNpos
  · intro i hi
    rw [hL, getD_range_map N i _ hi]
    exact ⟨rfl, rfl⟩
  · rw [hL, List.map_map]
    have hconst : ((List.range N).map
        ((fun c => SubtitleChunk.duration c) ∘ (fun i =>
          ({ text := joinWords ((wordChunks fits (pyWords text)).getD i [])
             start := start_s + (i : ℚ) * (D / (N : ℚ))
             duration := D / (N : ℚ) } : SubtitleChunk)))).sum =
        ((List.range N).map (fun _ => D / (N : ℚ))).sum := rfl
    rw [hconst, List.map_const', List.sum_replicate, List.length_range,
      nsmul_eq_mul]
    field_simp
  · intro i hi
    have hi1 : i < N := Nat.lt_of_succ_lt hi
    rw [hL, getD_range_map N i _ hi1, getD_range_map N (i + 1) _ hi]
    constructor
    · push_cast
      ring
    · have : (i : ℚ) * (D / (N : ℚ)) < ((i : ℚ) + 1) * (D / (N : ℚ)) := by
        nlinarith [hdpos]
      push_cast
      linarith

/-- C3, witness: entry from 1 s to 3 s with words chunked three ways. -/
theorem entry_chunk_timing_witness :
    ((entrySubtitles demoFits 1 3 "ab cd efgh").map SubtitleChunk.duration).sum =
      (if (3 : ℚ) - 1 ≤ 0 then (1 : ℚ) / 2 else 3 - 1) ∧
    ((entrySubtitles demoFits 1 3 "ab cd efgh").getD 1 default).start =
      ((entrySubtitles demoFits 1 3 "ab cd efgh").getD 0 default).start +
        ((entrySubtitles demoFits 1 3 "ab cd efgh").getD 0 default).duration :=
  ⟨(entry_chunk_timing demoFits 1 3 "ab cd efgh" (by decide)).2.2.2.1,
   ((entry_chunk_timing demoFits 1 3 "ab cd efgh" (by decide)).2.2.2.2 0
      (by decide)).1⟩

/-- Successful conversion of every component is what makes `mapFloat`
succeed. -/
theorem mapFloat_isSome :
    ∀ ps : List (List Char),
      (mapFloat ps).isSome = ps.all fun p => (parseFloat p).isSome := by
  intro ps
  induction ps with
  | nil => rfl
  | cons p ps ih =>
    rw [List.all_cons, ← ih]
    cases hp : parseFloat p <;> cases hm : mapFloat ps <;>
      simp [mapFloat, hp, hm]

/-- A successful `mapFloat` preserves the component count. -/
theorem mapFloat_length :
    ∀ (ps : List (List Char)) (vs : List ℚ), mapFloat ps = some vs →
      vs.length = ps.length := by
  intro ps
  induction ps with
  | nil => intro vs h; cases h; rfl
  | cons p ps ih =>
    intro vs h
    cases hp : parseFloat p <;> cases hm : mapFloat ps <;>
      rw [mapFloat, hp, hm] at h <;> cases h
    simp [ih _ hm]

/-- gumloop's `parse_time` succeeds exactly on a 2- or 3-component numeric
time string. -/
theorem parse_time_isSome (t : List Char) :
    (parse_time t).isSome = timeComponentsOk t := by
  unfold parse_time timeComponentsOk
  cases hm : mapFloat (splitOnChar ':' (trimChars t)) with
  | none =>
    have h := mapFloat_isSome (splitOnChar ':' (trimChars t))
    rw [hm] at h
    simp [← h]
  | some vs =>
    have h := mapFloat_isSome (splitOnChar ':' (trimChars t))
    have hlen := mapFloat_length _ _ hm
    rw [hm] at h
    rw [← h, Option.isSome_some, Bool.and_true, ← hlen]
    match vs with
    | [] => rfl
    | [a] => rfl
    | [a, b] => rfl
    | [a, b, c] => rfl
    | a :: b :: c :: d :: r => rfl

/-- `to_seconds` of backend/video_processing.py succeeds exactly when its
evaluated components convert (all of them for 2 or 3 components, the first
one otherwise). -/
theorem vp_to_seconds_isSome (t : List Char) :
    (vp_to_seconds t).isSome = vpTimeOk t := by
  unfold vp_to_seconds vpTimeOk
  match hs : splitOnChar ':' (trimChars t) with
  | [] => rfl
  | [p] => cases hp : parseFloat p <;> simp [hp]
  | [a, b] =>
    cases ha : parseFloat a <;> cases hb : parseFloat b <;> simp [ha, hb]
  | [a, b, c] =>
    cases ha : parseFloat a <;> cases hb : parseFloat b <;>
      cases hc : parseFloat c <;> simp [ha, hb, hc]
  | a :: b :: c :: d :: r =>
    cases ha : parseFloat a <;> simp [ha]

/-- The split of any character list is never the empty list of parts. -/
theorem splitOnChar_ne_nil (sep : Char) : ∀ cs, splitOnChar sep cs ≠ [] := by
  intro cs
  cases cs with
  | nil => simp [splitOnChar]
  | cons c cs =>
    unfold splitOnChar
    by_cases h : c = sep
    · simp [h]
    · cases hr : splitOnChar sep cs <;> simp [h, hr]

/-- C8, counterexample. The claim's failure set is wrong on both cited
parsers: a plain one-component numeric input ("5") is outside the claim's
failure set, yet gumloop's `parse_timestamp` raises on it; and an input with
more than 3 colon components is inside the claim's failure set, yet
backend/video_processing.py's parser accepts it (converting only the first
component). -/
theorem timestamp_failure_claim_false :
    parse_timestamp "5" = none ∧
    vp_parse_timestamp "1:2:3:4-0:05" = some (1, 5) := by
  constructor
  · rfl
  · with_unfolding_all rfl

/-- C8, amended. gumloop's `parse_timestamp` fails exactly when one of the
dash parts it evaluates (the first, and the second when present) does not
have 2 or 3 colon components with every component numeric — in particular a
bare-seconds part fails and a third dash part is ignored; the
backend/video_processing.py parser fails exactly when the dash-part count is
not 2 or an evaluated side fails its conversion (all components for a 2- or
3-component side, only the first component otherwise). -/
theorem timestamp_parse_failure_exact (s : String) :
    (parse_timestamp s).isSome =
      ((splitOnChar '-' s.data).take 2).all timeComponentsOk ∧
    (vp_parse_timestamp s).isSome =
      (((splitOnChar '-' s.data).length == 2) &&
        (splitOnChar '-' s.data).all vpTimeOk) := by
  constructor
  · unfold parse_timestamp
    match hs : splitOnChar '-' s.data with
    | [] => exact absurd hs (splitOnChar_ne_nil '-' s.data)
    | [p] =>
      have h0 := parse_time_isSome p
      cases hp : parse_time p <;> rw [hp] at h0 <;> simp [← h0, hp]
    | p :: q :: r =>
      have h0 := parse_time_isSome p
      have h1 := parse_time_isSome q
      cases hp : parse_time p <;> rw [hp] at h0 <;>
        cases hq : parse_time q <;> rw [hq] at h1 <;> simp [← h0, ← h1, hp, hq]
  · unfold vp_parse_timestamp
    match hs : splitOnChar '-' s.data with
    | [] => exact absurd hs (splitOnChar_ne_nil '-' s.data)
    | [p] => simp
    | [a, b] =>
      have h0 := vp_to_seconds_isSome a
      have h1 := vp_to_seconds_isSome b
      cases ha : vp_to_seconds a <;> rw [ha] at h0 <;>
        cases hb : vp_to_seconds b <;> rw [hb] at h1 <;>
        simp [← h0, ← h1, ha, hb]
    | a :: b :: c :: r => simp

/-- C9, counterexample. "45" is a valid bare-seconds timestamp; the claim
says every exposed timestamp parser maps it to 45.0, but gumloop's
`parse_timestamp` raises on it (while `time_to_seconds` does accept it). -/
theorem gumloop_rejects_bare_seconds :
    parse_timestamp "45" = none ∧ time_to_seconds "45" = some 45 := by
  constructor
  · rfl
  · with_unfolding_all rfl

/-- C9, amended. On the component forms each parser accepts, the parsed value
is the weighted sum h*3600 + m*60 + s: `time_to_seconds` handles all three
forms (H:MM:SS, MM:SS, bare SS), while gumloop's `parse_time` handles H:MM:SS
and MM:SS with the same values but rejects the bare-seconds form. -/
theorem time_parsing_weighted_sum (t : String) :
    (∀ a b c hv mv sv, splitOnChar ':' t.data = [a, b, c] →
      parseFloat a = some hv → parseFloat b = some mv → parseFloat c = some sv →
      time_to_seconds t = some (hv * 3600 + mv * 60 + sv)) ∧
    (∀ a b mv sv, splitOnChar ':' t.data = [a, b] →
      parseFloat a = some mv → parseFloat b = some sv →
      time_to_seconds t = some (mv * 60 + sv)) ∧
    (∀ a v, splitOnChar ':' t.data = [a] → parseFloat a = some v →
      time_to_seconds t = some v) ∧
    (∀ a b c hv mv sv, splitOnChar ':' (trimChars t.data) = [a, b, c] →
      parseFloat a = some hv → parseFloat b = some mv → parseFloat c = some sv →
      parse_time t.data = some (hv * 3600 + mv * 60 + sv)) ∧
    (∀ a b mv sv, splitOnChar ':' (trimChars t.data) = [a, b] →
      parseFloat a = some mv → parseFloat b = some sv →
      parse_time t.data = some (mv * 60 + sv)) ∧
    (∀ a, splitOnChar ':' (trimChars t.data) = [a] →
      parse_time t.data = none) := by
  refine ⟨?_, ?_, ?_, ?_, ?_, ?_⟩
  · intro a b c hv mv sv hs ha hb hc
    simp [time_to_seconds, hs, ha, hb, hc]
  · intro a b mv sv hs ha hb
    simp [time_to_seconds, hs, ha, hb]
  · intro a v hs ha
    simp [time_to_seconds, hs, ha]
  · intro a b c hv mv sv hs ha hb hc
    simp [parse_time, mapFloat, hs, ha, hb, hc]
  · intro a b mv sv hs ha hb
    simp [parse_time, mapFloat, hs, ha, hb]
  · intro a hs
    cases hp : parseFloat a <;> simp [parse_time, mapFloat, hs, hp]

/-- C9, witness for the amended theorem: a three-component time and the
rejected bare-seconds form. -/
theorem time_parsing_weighted_sum_witness :
    time_to_seconds "1:02:03" = some (1 * 3600 + 2 * 60 + 3) ∧
    parse_time "7".data = none :=
  ⟨(time_parsing_weighted_sum "1:02:03").1 ['1'] ['0', '2'] ['0', '3'] 1 2 3
      rfl (by with_unfolding_all rfl) (by with_unfolding_all rfl)
      (by with_unfolding_all rfl),
   (time_parsing_weighted_sum "7").2.2.2.2.2 ['7'] rfl⟩
